import Mathlib

/-!
Verification development for the ComfyUI-TRELLIS2 installation and bootstrap
harness. The repository has three entry points: an installer (`install.py`),
a pre-startup hook (`prestartup_script.py`) and an isolation shim
(`nodes/utils/isolation.py`). Below each is shallowly embedded: subprocess
executions and filesystem probes become explicit parameters, exceptions become
`Except` errors, and each entry point becomes a pure function producing a
result record (exit code, invoked commands, emitted log lines, actions).
-/

namespace Trellis2

/-- Outcome of a `subprocess.run` call: either the launch raised an exception,
or the subprocess ran and exited with a return code. -/
inductive RunOutcome where
  | raised (msg : String)
  | exited (code : Int)
deriving Repr, DecidableEq

/-- Outcome of the `urllib.request.urlretrieve` download in `install_vcredist`. -/
inductive DownloadOutcome where
  | ok
  | failed (msg : String)
deriving Repr, DecidableEq

/-! ## install.py: interpreter resolution -/

/-- Path components of the venv interpreter relative to the ComfyUI root:
`venv/Scripts/python.exe` on Windows, `venv/bin/python` otherwise
(from `_get_comfyui_venv_python`). -/
def venvRelPath (isWindows : Bool) : List String :=
  if isWindows then ["venv", "Scripts", "python.exe"] else ["venv", "bin", "python"]

/-- The venv interpreter path probed by `_get_comfyui_venv_python`:
the ComfyUI root is `node_root.parent.parent` (two components dropped),
then the platform-specific venv interpreter path is appended. -/
def venvPythonPath (nodeRoot : List String) (isWindows : Bool) : List String :=
  nodeRoot.dropLast.dropLast ++ venvRelPath isWindows

/-- Render a component path as a string (as passed on a pip command line). -/
def pathStr (p : List String) : String := String.intercalate "/" p

/-- `_get_comfyui_venv_python(node_root)`: return the ComfyUI venv python path
if it exists on the filesystem, otherwise `None`. -/
def _get_comfyui_venv_python (fsExists : List String → Bool)
    (nodeRoot : List String) (isWindows : Bool) : Option (List String) :=
  let p := venvPythonPath nodeRoot isWindows
  if fsExists p then some p else none

/-! ## install.py: environment list splitting

Python strings are embedded as `String`; the character-level operations of
`_split_env_list` (`str.replace`, `str.split`, `str.strip`) are carried out on
the underlying character list so every theorem is kernel-evaluable. -/

/-- `value.replace(";", ",")` at the character level. -/
def replaceSemis : List Char → List Char
  | [] => []
  | c :: rest => (if c = ';' then ',' else c) :: replaceSemis rest

/-- `value.split(",")` at the character level: split on every comma,
keeping empty pieces, as Python `str.split` with an explicit separator does. -/
def splitOnComma : List Char → List (List Char)
  | [] => [[]]
  | c :: rest =>
    if c = ',' then [] :: splitOnComma rest
    else
      match splitOnComma rest with
      | [] => [[c]]
      | piece :: more => (c :: piece) :: more

/-- Whitespace characters removed by Python `str.strip()` (ASCII subset). -/
def isSpaceChar (c : Char) : Bool :=
  c = ' ' || c = '\t' || c = '\n' || c = '\r'

/-- `item.strip()` at the character level: drop whitespace from both ends. -/
def stripChars (l : List Char) : List Char :=
  ((l.dropWhile isSpaceChar).reverse.dropWhile isSpaceChar).reverse

/-- `_split_env_list(value)`: `None` and the empty string yield `[]`; otherwise
replace semicolons by commas, split on commas, strip each piece and keep the
non-empty ones, in order. -/
def _split_env_list : Option String → List String
  | none => []
  | some v =>
    if v.toList = [] then []
    else
      (((splitOnComma (replaceSemis v.toList)).map stripChars).filter
        (fun s => !s.isEmpty)).map (fun l => String.mk l)

/-! ## install.py: the two installation steps and main -/

/-- The five hard-coded wheel URLs (identical in `install.py` and
`prestartup_script.py`). -/
def wheel_urls : List String :=
  ["https://huggingface.co/datasets/arcticlatent/trellis2/resolve/main/cumesh-0.0.1-cp312-cp312-linux_x86_64.whl",
   "https://huggingface.co/datasets/arcticlatent/trellis2/resolve/main/flex_gemm-1.0.0-cp312-cp312-linux_x86_64.whl",
   "https://huggingface.co/datasets/arcticlatent/trellis2/resolve/main/nvdiffrast-0.4.0-cp312-cp312-linux_x86_64.whl",
   "https://huggingface.co/datasets/arcticlatent/trellis2/resolve/main/nvdiffrec_render-0.0.0-cp312-cp312-linux_x86_64.whl",
   "https://huggingface.co/datasets/arcticlatent/trellis2/resolve/main/o_voxel-0.0.1-cp312-cp312-linux_x86_64.whl"]

/-- Ambient state an `install.py` run observes: platform, plugin root path,
filesystem existence, the fallback interpreter `sys.executable`, the outcomes
of the two pip subprocesses, and the two wheel-source environment variables. -/
structure InstallerEnv where
  isWindows : Bool
  nodeRoot : List String
  fsExists : List String → Bool
  sysExecutable : String
  pipReqOutcome : RunOutcome
  pipWheelOutcome : RunOutcome
  wheelIndexUrlEnv : Option String
  findLinksEnv : Option String

/-- The interpreter string both installer steps put at the head of their pip
command: the venv python when `_get_comfyui_venv_python` finds one, else
`sys.executable`. -/
def resolvedExec (env : InstallerEnv) : String :=
  match _get_comfyui_venv_python env.fsExists env.nodeRoot env.isWindows with
  | some p => pathStr p
  | none => env.sysExecutable

/-- `node_root / "requirements.txt"`. -/
def requirementsPath (env : InstallerEnv) : List String :=
  env.nodeRoot ++ ["requirements.txt"]

/-- `ensure_venv_requirements(node_root)`: returns the boolean success and the
list of pip commands invoked. A missing requirements file returns failure with
no subprocess invoked; a launch exception or nonzero exit is failure. -/
def ensure_venv_requirements (env : InstallerEnv) : Bool × List (List String) :=
  if env.fsExists (requirementsPath env) = false then (false, [])
  else
    let cmd := [resolvedExec env, "-m", "pip", "install", "-r",
                pathStr (requirementsPath env)]
    match env.pipReqOutcome with
    | .raised _ => (false, [cmd])
    | .exited c => (c == 0, [cmd])

/-- `ensure_cuda_packages(node_root)`: one combined pip invocation over the
five wheel URLs, with `--extra-index-url` and `--find-links` options appended
from the two environment variables. -/
def ensure_cuda_packages (env : InstallerEnv) : Bool × List (List String) :=
  let extra := _split_env_list env.wheelIndexUrlEnv
  let links := _split_env_list env.findLinksEnv
  let cmd := [resolvedExec env, "-m", "pip", "install"] ++ wheel_urls
      ++ extra.flatMap (fun u => ["--extra-index-url", u])
      ++ links.flatMap (fun l => ["--find-links", l])
  match env.pipWheelOutcome with
  | .raised _ => (false, [cmd])
  | .exited c => (c == 0, [cmd])

/-- Observable result of `main()`: process exit code, which steps were
attempted, the pip commands invoked, and the log lines relevant to the
vcredist warning and step errors. -/
structure InstallerRun where
  exitCode : Int
  reqAttempted : Bool
  wheelAttempted : Bool
  cmds : List (List String)
  logs : List String
deriving Repr, DecidableEq

/-- `main()`: run `ensure_vcredist` (outcome `vcredistOk`; a failure only
prints a warning), then `ensure_venv_requirements`, returning 1 on its
failure; then `ensure_cuda_packages`, returning 1 on its failure; else 0. -/
def installer_main (env : InstallerEnv) (vcredistOk : Bool) : InstallerRun :=
  let vcLogs := if vcredistOk then [] else
    ["[TRELLIS2] WARNING: VC++ Redistributable installation failed.",
     "[TRELLIS2] Some features may not work. Continuing anyway..."]
  match ensure_venv_requirements env with
  | (false, reqCmds) =>
    { exitCode := 1, reqAttempted := true, wheelAttempted := false,
      cmds := reqCmds,
      logs := vcLogs ++ ["[TRELLIS2] ERROR: Failed to install requirements into venv."] }
  | (true, reqCmds) =>
    match ensure_cuda_packages env with
    | (false, wheelCmds) =>
      { exitCode := 1, reqAttempted := true, wheelAttempted := true,
        cmds := reqCmds ++ wheelCmds,
        logs := vcLogs ++ ["[TRELLIS2] ERROR: Failed to install CUDA extension packages."] }
    | (true, wheelCmds) =>
      { exitCode := 0, reqAttempted := true, wheelAttempted := true,
        cmds := reqCmds ++ wheelCmds, logs := vcLogs }

/-! ## install.py: install_vcredist -/

/-- Ambient state `install_vcredist` observes: the download outcome, the
outcome of executing the downloaded installer, whether `os.remove` raises
(its exception is swallowed by a bare `except: pass`), and the result of the
`check_vcredist_installed` probe run after a successful install. -/
structure VcredistEnv where
  download : DownloadOutcome
  execOutcome : RunOutcome
  removeRaises : Bool
  dllsPresentAfter : Bool
deriving Repr, DecidableEq

/-- Observable result of `install_vcredist`: the returned boolean, whether the
temporary installer file ended up deleted, and whether the
`check_vcredist_installed` presence probe was re-run. -/
structure VcredistRun where
  success : Bool
  tempRemoved : Bool
  probeRerun : Bool
deriving Repr, DecidableEq

/-- `install_vcredist()`: download the redistributable to a temp path (failure
returns `False`); run it (a launch exception returns `False` straight away);
then `os.remove` the temp file (errors swallowed); exit code 0 or 1638 falls
through to re-running `check_vcredist_installed`, whose result is returned;
any other exit code returns `False`. -/
def install_vcredist (env : VcredistEnv) : VcredistRun :=
  match env.download with
  | .failed _ => { success := false, tempRemoved := false, probeRerun := false }
  | .ok =>
    match env.execOutcome with
    | .raised _ => { success := false, tempRemoved := false, probeRerun := false }
    | .exited c =>
      let removed := !env.removeRaises
      if c == 0 || c == 1638 then
        { success := env.dllsPresentAfter, tempRemoved := removed, probeRerun := true }
      else
        { success := false, tempRemoved := removed, probeRerun := false }

/-! ## prestartup_script.py: asset copy -/

/-- A directory entry of the bundled `assets` directory: its name, the file
content (relevant only when it is a regular file), and whether `os.path.isfile`
holds for it. -/
structure Entry where
  name : String
  content : String
  isFile : Bool
deriving Repr, DecidableEq

/-- Side-effecting actions `copy_assets_to_input` performs, in order. -/
inductive Action where
  | mkdirInput
  | copyAsset (name : String)
deriving Repr, DecidableEq

/-- Exceptions the asset copy can raise (it has no `try`/`except`):
`shutil.copy2` into a non-existent input directory, or a copy error such as a
permission failure on a particular asset. -/
inductive HookErr where
  | noInputDir
  | copyError (name : String)
deriving Repr, DecidableEq

/-- Filesystem state the pre-startup asset copy observes: whether the bundled
`assets` directory exists and its entries (in `os.listdir` order), whether the
host `input` directory exists, the files already in `input` (name, content),
and which asset names `shutil.copy2` would raise on. -/
structure HookFS where
  assetsExists : Bool
  assets : List Entry
  inputDirExists : Bool
  input : List (String × String)
  copyFails : String → Bool

/-- `os.path.exists(dst)` over the embedded input directory: the content of the
first file with the given name, if any. -/
def lookupFile (n : String) : List (String × String) → Option String
  | [] => none
  | (k, v) :: rest => if k = n then some v else lookupFile n rest

/-- The `for asset in os.listdir(assets_src)` loop of `copy_assets_to_input`:
each regular file whose destination does not yet exist is copied (appended to
the input directory); `shutil.copy2` raises if the input directory is missing
or the copy itself fails, and nothing catches that. Returns the final input
directory and the copy actions, in order. -/
def copyLoop (dirExists : Bool) (cf : String → Bool) :
    List Entry → List (String × String) →
    Except HookErr (List (String × String) × List Action)
  | [], input => .ok (input, [])
  | e :: rest, input =>
    if e.isFile && (lookupFile e.name input).isNone then
      if !dirExists then .error HookErr.noInputDir
      else if cf e.name then .error (HookErr.copyError e.name)
      else
        match copyLoop dirExists cf rest (input ++ [(e.name, e.content)]) with
        | .ok (out, acts) => .ok (out, Action.copyAsset e.name :: acts)
        | .error m => .error m
    else copyLoop dirExists cf rest input

/-- `copy_assets_to_input()`: if the assets directory exists, first
`os.makedirs(input_dst, exist_ok=True)` (so the input directory exists from
then on, whether or not it did before), then the copy loop. If the assets
directory is absent, nothing happens. No exception handling anywhere. -/
def copy_assets_to_input (fs : HookFS) : Except HookErr (HookFS × List Action) :=
  if fs.assetsExists then
    match copyLoop true fs.copyFails fs.assets fs.input with
    | .ok (input, acts) =>
      .ok ({ fs with inputDirExists := true, input := input },
           Action.mkdirInput :: acts)
    | .error m => .error m
  else .ok (fs, [])

/-! ## prestartup_script.py: wheel check -/

/-- The five module names probed with `importlib.util.find_spec`. -/
def hook_modules : List String :=
  ["cumesh", "flex_gemm", "nvdiffrast", "nvdiffrec_render", "o_voxel"]

/-- Whether an `Except` computation finished without an exception. -/
def exceptOk {ε α : Type} : Except ε α → Bool
  | .ok _ => true
  | .error _ => false

/-- `_ensure_cuda_wheels()`: compute the missing modules; if none, do nothing.
Otherwise run `[sys.executable, "-m", "pip", "install", *wheel_urls]` inside a
`try`/`except` that logs a launch exception and returns; a nonzero exit code is
only logged. Returns the log lines and the pip command invoked (if any). -/
def _ensure_cuda_wheels (importable : String → Bool) (sysExecutable : String)
    (pipOutcome : RunOutcome) :
    Except String (List String × Option (List String)) :=
  match hook_modules.filter (fun n => !(importable n)), pipOutcome with
  | [], _ => .ok ([], none)
  | _ :: _, .raised m =>
    .ok (["[TRELLIS2] Failed to install CUDA wheels: " ++ m],
         some ([sysExecutable, "-m", "pip", "install"] ++ wheel_urls))
  | _ :: _, .exited c =>
    if c != 0 then
      .ok (["[TRELLIS2] CUDA wheel install failed with code " ++ toString c],
           some ([sysExecutable, "-m", "pip", "install"] ++ wheel_urls))
    else .ok ([], some ([sysExecutable, "-m", "pip", "install"] ++ wheel_urls))

/-! ## nodes/utils/isolation.py -/

/-- The truthy values recognised by `_is_truthy` (after strip and lower). -/
def truthy_values : List String := ["1", "true", "yes", "on"]

/-- `_is_truthy(value)`: `None` is falsy; otherwise strip, lowercase and test
membership in the truthy set. -/
def _is_truthy : Option String → Bool
  | none => false
  | some s =>
    truthy_values.contains (String.mk ((stripChars s.toList).map Char.toLower))

/-- `_noop_isolated(*args, **kwargs)`: ignore the arguments and return the
identity decorator. -/
def _noop_isolated {α β : Type} (_a : α) : β → β := fun obj => obj

/-- Which decorator `_get_isolated` resolves to: the local no-op, or
`comfy_env.isolated`, the external isolation mechanism. -/
inductive IsolatedImpl where
  | noop
  | comfy
deriving Repr, DecidableEq

/-- `_get_isolated()`: if `TRELLIS2_ENABLE_COMFY_ENV` is truthy, try to import
`comfy_env` and return its `isolated`; on import failure fall back to the
no-op. If the flag is not truthy, return the no-op. -/
def _get_isolated (envVal : Option String) (comfyImportOk : Bool) : IsolatedImpl :=
  if _is_truthy envVal then
    if comfyImportOk then IsolatedImpl.comfy else IsolatedImpl.noop
  else IsolatedImpl.noop

/-! ## Concrete environments used in counterexamples and witnesses -/

/-- An installer run in which the requirements pip subprocess exits 1 and the
wheel pip subprocess would exit 0; every probed path exists. -/
def envReqFail : InstallerEnv where
  isWindows := false
  nodeRoot := ["home", "user", "ComfyUI", "custom_nodes", "ComfyUI-TRELLIS2"]
  fsExists := fun _ => true
  sysExecutable := "/usr/bin/python3"
  pipReqOutcome := RunOutcome.exited 1
  pipWheelOutcome := RunOutcome.exited 0
  wheelIndexUrlEnv := none
  findLinksEnv := none

/-- An installer run on a filesystem where nothing exists (in particular no
`requirements.txt`). -/
def envNoReqFile : InstallerEnv where
  isWindows := false
  nodeRoot := ["ComfyUI", "custom_nodes", "ComfyUI-TRELLIS2"]
  fsExists := fun _ => false
  sysExecutable := "/usr/bin/python3"
  pipReqOutcome := RunOutcome.exited 0
  pipWheelOutcome := RunOutcome.exited 0
  wheelIndexUrlEnv := none
  findLinksEnv := none

/-- An installer run where everything exists and both pip subprocesses exit 0. -/
def envAllOk : InstallerEnv where
  isWindows := false
  nodeRoot := ["ComfyUI", "custom_nodes", "ComfyUI-TRELLIS2"]
  fsExists := fun _ => true
  sysExecutable := "/usr/bin/python3"
  pipReqOutcome := RunOutcome.exited 0
  pipWheelOutcome := RunOutcome.exited 0
  wheelIndexUrlEnv := none
  findLinksEnv := none

/-- A vcredist attempt in which the downloaded installer raises on launch. -/
def vcExecRaised : VcredistEnv where
  download := DownloadOutcome.ok
  execOutcome := RunOutcome.raised "WinError 740"
  removeRaises := false
  dllsPresentAfter := false

/-- A vcredist attempt in which the installer runs and exits 0, and the DLL
probe afterwards finds the DLLs. -/
def vcExecOk : VcredistEnv where
  download := DownloadOutcome.ok
  execOutcome := RunOutcome.exited 0
  removeRaises := false
  dllsPresentAfter := true

/-- A pre-startup filesystem on which copying the single bundled asset raises
(for instance a permission error in `shutil.copy2`). -/
def copyFailFS : HookFS where
  assetsExists := true
  assets := [{ name := "example.png", content := "PNG", isFile := true }]
  inputDirExists := true
  input := []
  copyFails := fun _ => true

/-- A pre-startup filesystem whose input directory does not yet exist, holding
one copyable asset, one asset already present in `input`, and a directory. -/
def hookOkFS : HookFS where
  assetsExists := true
  assets := [{ name := "old.png", content := "NEW", isFile := true },
             { name := "sub", content := "", isFile := false },
             { name := "fresh.png", content := "FRESH", isFile := true }]
  inputDirExists := false
  input := [("old.png", "OLD")]
  copyFails := fun _ => false

/-- The pre-startup filesystem `hookOkFS` after a successful
`copy_assets_to_input`: the input directory now exists, `old.png` keeps its
original content, the directory entry was skipped, and `fresh.png` was
copied. -/
def hookOkFSAfter : HookFS where
  assetsExists := true
  assets := hookOkFS.assets
  inputDirExists := true
  input := [("old.png", "OLD"), ("fresh.png", "FRESH")]
  copyFails := hookOkFS.copyFails

/-- The filesystem predicate that affirms every path, used to exhibit a state
where the venv interpreter exists. -/
def allPathsExist : List String → Bool := fun _ => true

/-- An importability predicate under which every hook module is missing. -/
def noModulesImportable : String → Bool := fun _ => false

/-! ## Helper lemmas -/

theorem lookupFile_append (n : String) (l1 l2 : List (String × String)) :
    lookupFile n (l1 ++ l2)
      = match lookupFile n l1 with
        | some c => some c
        | none => lookupFile n l2 := by
  induction l1 with
  | nil => simp [lookupFile]
  | cons p rest ih =>
    obtain ⟨k, v⟩ := p
    by_cases h : k = n <;> simp [lookupFile, h, ih]

theorem copyLoop_preserves (dirE : Bool) (cf : String → Bool) :
    ∀ (l : List Entry) (input out : List (String × String)) (acts : List Action)
      (n c : String),
      lookupFile n input = some c →
      copyLoop dirE cf l input = .ok (out, acts) →
      lookupFile n out = some c := by
  intro l
  induction l with
  | nil =>
    intro input out acts n c hl hc
    simp only [copyLoop, Except.ok.injEq, Prod.mk.injEq] at hc
    rw [← hc.1]
    exact hl
  | cons e rest ih =>
    intro input out acts n c hl hc
    unfold copyLoop at hc
    split at hc
    · split at hc
      · exact absurd hc (by simp)
      · split at hc
        · exact absurd hc (by simp)
        · cases hrec : copyLoop dirE cf rest (input ++ [(e.name, e.content)]) with
          | ok pr =>
            obtain ⟨out', acts'⟩ := pr
            rw [hrec] at hc
            simp only [Except.ok.injEq, Prod.mk.injEq] at hc
            have hl' : lookupFile n (input ++ [(e.name, e.content)]) = some c := by
              rw [lookupFile_append, hl]
            have := ih (input ++ [(e.name, e.content)]) out' acts' n c hl' hrec
            rw [← hc.1]
            exact this
          | error m =>
            rw [hrec] at hc
            exact absurd hc (by simp)
    · exact ih input out acts n c hl hc

theorem copyLoop_new_files (dirE : Bool) (cf : String → Bool) :
    ∀ (l : List Entry) (input out : List (String × String)) (acts : List Action)
      (n : String),
      copyLoop dirE cf l input = .ok (out, acts) →
      lookupFile n out ≠ none →
      lookupFile n input ≠ none
      ∨ ∃ e, e ∈ l ∧ e.name = n ∧ e.isFile = true := by
  intro l
  induction l with
  | nil =>
    intro input out acts n hc hn
    simp only [copyLoop, Except.ok.injEq, Prod.mk.injEq] at hc
    rw [← hc.1] at hn
    exact Or.inl hn
  | cons e rest ih =>
    intro input out acts n hc hn
    unfold copyLoop at hc
    split at hc
    case isTrue hcond =>
      have hfile : e.isFile = true := by
        have h' := hcond
        simp only [Bool.and_eq_true] at h'
        exact h'.1
      split at hc
      · exact absurd hc (by simp)
      · split at hc
        · exact absurd hc (by simp)
        · cases hrec : copyLoop dirE cf rest (input ++ [(e.name, e.content)]) with
          | ok pr =>
            obtain ⟨out', acts'⟩ := pr
            rw [hrec] at hc
            simp only [Except.ok.injEq, Prod.mk.injEq] at hc
            rw [← hc.1] at hn
            rcases ih (input ++ [(e.name, e.content)]) out' acts' n hrec hn with h | h
            · rw [lookupFile_append] at h
              cases hli : lookupFile n input with
              | some c => exact Or.inl (by simp [hli])
              | none =>
                rw [hli] at h
                simp only [lookupFile] at h
                by_cases hne : e.name = n
                · exact Or.inr ⟨e, List.mem_cons_self e rest, hne, hfile⟩
                · simp [hne, lookupFile] at h
            · obtain ⟨e', he', hn', hf'⟩ := h
              exact Or.inr ⟨e', List.mem_cons_of_mem e he', hn', hf'⟩
          | error m =>
            rw [hrec] at hc
            exact absurd hc (by simp)
    case isFalse hcond =>
      rcases ih input out acts n hc hn with h | h
      · exact Or.inl h
      · obtain ⟨e', he', hn', hf'⟩ := h
        exact Or.inr ⟨e', List.mem_cons_of_mem e he', hn', hf'⟩

theorem copyLoop_ok_of_no_failures (cf : String → Bool) :
    ∀ (l : List Entry) (input : List (String × String)),
      (∀ e, e ∈ l → cf e.name = false) →
      ∃ out acts, copyLoop true cf l input = .ok (out, acts) := by
  intro l
  induction l with
  | nil => intro input _; exact ⟨input, [], rfl⟩
  | cons e rest ih =>
    intro input h
    have hcf : cf e.name = false := h e (List.mem_cons_self e rest)
    have hrest : ∀ e', e' ∈ rest → cf e'.name = false :=
      fun e' he' => h e' (List.mem_cons_of_mem e he')
    unfold copyLoop
    by_cases hcond : (e.isFile && (lookupFile e.name input).isNone) = true
    · obtain ⟨out, acts, hrec⟩ := ih (input ++ [(e.name, e.content)]) hrest
      rw [if_pos hcond, hcf]
      simp only [Bool.not_true, Bool.false_eq_true, if_false, hrec]
      exact ⟨out, Action.copyAsset e.name :: acts, rfl⟩
    · rw [if_neg hcond]
      exact ih input hrest

theorem copyLoop_no_missing_dir_error (cf : String → Bool) :
    ∀ (l : List Entry) (input : List (String × String)),
      copyLoop true cf l input ≠ .error HookErr.noInputDir := by
  intro l
  induction l with
  | nil => intro input h; simp [copyLoop] at h
  | cons e rest ih =>
    intro input h
    unfold copyLoop at h
    split at h
    · simp only [Bool.not_true, Bool.false_eq_true, if_false] at h
      split at h
      · simp at h
      · cases hrec : copyLoop true cf rest (input ++ [(e.name, e.content)]) with
        | ok pr => rw [hrec] at h; obtain ⟨out', acts'⟩ := pr; simp at h
        | error m =>
          rw [hrec] at h
          simp only [Except.error.injEq] at h
          rw [h] at hrec
          exact ih (input ++ [(e.name, e.content)]) hrec
    · exact ih input h

/-! ## Claim theorems -/

/-- C1 (counterexample): with the requirements pip subprocess exiting 1,
`main()` returns 1 with the wheel-install step never attempted — refuting the
claim that `main()` proceeds to `ensure_cuda_packages` after a
requirements-step failure. -/
theorem installer_wheel_after_req_failure_cex :
    (ensure_venv_requirements envReqFail).1 = false
    ∧ (installer_main envReqFail true).wheelAttempted = false
    ∧ (installer_main envReqFail true).exitCode = 1 :=
  ⟨rfl, rfl, rfl⟩

/-- C1 (amended): if the requirements-install step fails, `main()` returns 1
immediately and the wheel-install step (`ensure_cuda_packages`) is not
attempted; `main()` returns early on the requirements failure check. -/
theorem installer_short_circuits_on_req_failure (env : InstallerEnv) (vc : Bool)
    (h : (ensure_venv_requirements env).1 = false) :
    (installer_main env vc).exitCode = 1
    ∧ (installer_main env vc).wheelAttempted = false := by
  rcases h1 : ensure_venv_requirements env with ⟨reqOk, reqCmds⟩
  rw [h1] at h
  simp only at h
  subst h
  simp [installer_main, h1]

/-- C1 (witness): the amended theorem at the concrete failing environment. -/
theorem installer_short_circuits_on_req_failure_witness :
    (installer_main envReqFail true).exitCode = 1
    ∧ (installer_main envReqFail true).wheelAttempted = false :=
  installer_short_circuits_on_req_failure envReqFail true (by decide)

/-- C3: `main()` returns 0 iff both the requirements step and the wheel step
succeed, otherwise 1; the vcredist outcome never changes the exit code, and a
vcredist failure is logged (the warning heads the log). -/
theorem installer_exit_code_spec (env : InstallerEnv) (vc vc' : Bool) :
    (installer_main env vc).exitCode
      = (if (ensure_venv_requirements env).1 && (ensure_cuda_packages env).1
          then 0 else 1)
    ∧ (installer_main env vc).exitCode = (installer_main env vc').exitCode
    ∧ (installer_main env false).logs.head?
      = some "[TRELLIS2] WARNING: VC++ Redistributable installation failed." := by
  rcases h1 : ensure_venv_requirements env with ⟨reqOk, reqCmds⟩
  rcases h2 : ensure_cuda_packages env with ⟨wOk, wCmds⟩
  cases reqOk <;> cases wOk <;> simp [installer_main, h1, h2]

/-- C3 (witness): on an environment where both pip subprocesses exit 0, the
exit code evaluates to 0, and to 1 when the requirements subprocess exits 1. -/
theorem installer_exit_code_spec_witness :
    (installer_main envAllOk true).exitCode = 0
    ∧ (installer_main envReqFail true).exitCode = 1 := by
  constructor
  · rw [(installer_exit_code_spec envAllOk true false).1]; decide
  · rw [(installer_exit_code_spec envReqFail true false).1]; decide

/-- C5 (counterexample): if running the downloaded redistributable installer
raises an exception, `install_vcredist` returns `False` without deleting the
temporary file and without re-running the presence probe — refuting the claim
that the temp file is deleted regardless of the execution outcome. -/
theorem vcredist_temp_left_on_exception_cex :
    vcExecRaised.download = DownloadOutcome.ok
    ∧ vcExecRaised.removeRaises = false
    ∧ (install_vcredist vcExecRaised).tempRemoved = false
    ∧ (install_vcredist vcExecRaised).probeRerun = false := by decide

/-- C5 (amended): once the installer has been downloaded, if its execution
completes with any exit code the temp file is deleted (unless `os.remove`
itself raises, which is swallowed), the presence probe is re-run exactly when
the exit code is 0 or 1638, and in that case the probe's result is returned;
if execution raises, `install_vcredist` returns failure without deleting the
temp file and without re-running the probe. -/
theorem vcredist_cleanup_spec (env : VcredistEnv)
    (hd : env.download = DownloadOutcome.ok) :
    (∀ c, env.execOutcome = RunOutcome.exited c →
      (install_vcredist env).tempRemoved = !env.removeRaises
      ∧ (install_vcredist env).probeRerun = (c == 0 || c == 1638)
      ∧ ((c == 0 || c == 1638) = true →
          (install_vcredist env).success = env.dllsPresentAfter))
    ∧ (∀ m, env.execOutcome = RunOutcome.raised m →
      install_vcredist env
        = { success := false, tempRemoved := false, probeRerun := false }) := by
  obtain ⟨dl, ex, rr, dlls⟩ := env
  simp only at hd
  subst hd
  constructor
  · intro c hc
    simp only at hc
    subst hc
    cases h : (c == 0 || c == 1638) <;>
      simp [install_vcredist, h]
  · intro m hm
    simp only at hm
    subst hm
    rfl

/-- C5 (witness): the amended theorem at a run whose installer exits 0 with
the DLLs present afterwards. -/
theorem vcredist_cleanup_spec_witness :
    (install_vcredist vcExecOk).tempRemoved = true
    ∧ (install_vcredist vcExecOk).probeRerun = true
    ∧ (install_vcredist vcExecOk).success = true := by
  have h := (vcredist_cleanup_spec vcExecOk rfl).1 0 rfl
  refine ⟨?_, ?_, ?_⟩
  · rw [h.1]; decide
  · rw [h.2.1]; decide
  · rw [h.2.2 (by decide)]; decide

/-- C6: if the requirements file does not exist, `ensure_venv_requirements`
returns failure with no subprocess invoked (and, being a total function of the
environment, raises nothing). -/
theorem requirements_missing_no_subprocess (env : InstallerEnv)
    (h : env.fsExists (requirementsPath env) = false) :
    ensure_venv_requirements env = (false, []) := by
  simp [ensure_venv_requirements, h]

/-- C6 (witness): the theorem at a filesystem with no requirements file. -/
theorem requirements_missing_no_subprocess_witness :
    ensure_venv_requirements envNoReqFile = (false, []) :=
  requirements_missing_no_subprocess envNoReqFile rfl

/-- C7 (counterexample): with `TRELLIS2_ENABLE_COMFY_ENV="1"` and `comfy_env`
importable, `_get_isolated` resolves to the external `comfy_env.isolated`
rather than the no-op identity decorator — refuting the claim that the shim's
`isolated` is the identity for every environment. -/
theorem isolated_not_identity_cex :
    _get_isolated (some "1") true = IsolatedImpl.comfy
    ∧ IsolatedImpl.comfy ≠ IsolatedImpl.noop
    ∧ _is_truthy (some "1") = true :=
  ⟨rfl, by decide, rfl⟩

/-- C7 (amended): the no-op decorator returns any value unchanged for any
arguments, and `_get_isolated` resolves to it exactly when
`TRELLIS2_ENABLE_COMFY_ENV` is not truthy or `comfy_env` fails to import;
otherwise the shim's `isolated` is the external `comfy_env.isolated`. -/
theorem isolated_noop_spec {α β : Type} (x : α) (v : β)
    (envVal : Option String) (ok : Bool) :
    _noop_isolated x v = v
    ∧ (_get_isolated envVal ok = IsolatedImpl.noop
        ↔ ¬(_is_truthy envVal = true ∧ ok = true)) := by
  constructor
  · rfl
  · cases h : _is_truthy envVal <;> cases ok <;> simp [_get_isolated, h]

/-- C7 (witness): the amended theorem at concrete arguments: the no-op
decorator maps `37` to itself, and with the flag unset the resolver yields the
no-op. -/
theorem isolated_noop_spec_witness :
    _noop_isolated (["arg"], 5) (37 : Nat) = 37
    ∧ _get_isolated none false = IsolatedImpl.noop := by
  have h := isolated_noop_spec (["arg"], 5) (37 : Nat) none false
  exact ⟨h.1, h.2.mpr (by decide)⟩

/-- C8: `_split_env_list` splits on commas and semicolons, trims each piece
and drops empties preserving order: `"a, b;c ,, d"` yields exactly
`["a","b","c","d"]`, and `None` and `""` yield the empty list. -/
theorem split_env_list_spec :
    _split_env_list (some "a, b;c ,, d") = ["a", "b", "c", "d"]
    ∧ _split_env_list none = []
    ∧ _split_env_list (some "") = [] :=
  ⟨rfl, rfl, rfl⟩

/-- C2 (counterexample): a `shutil.copy2` failure (e.g. a permission error)
propagates out of `copy_assets_to_input`, which has no exception handling —
refuting the claim that every pre-startup failure path is swallowed. -/
theorem prestartup_copy_exception_cex :
    copy_assets_to_input copyFailFS
      = Except.error (HookErr.copyError "example.png") := rfl

/-- C2 (amended): the wheel-check half of the pre-startup hook swallows every
failure (`_ensure_cuda_wheels` catches launch exceptions and only logs nonzero
exit codes, so it never propagates an exception), but the asset-copy half has
no exception handling: a failing copy propagates out of
`copy_assets_to_input`. -/
theorem prestartup_error_policy :
    (∀ (importable : String → Bool) (exe : String) (pip : RunOutcome),
      exceptOk (_ensure_cuda_wheels importable exe pip) = true)
    ∧ exceptOk (copy_assets_to_input copyFailFS) = false := by
  constructor
  · intro importable exe pip
    unfold _ensure_cuda_wheels
    cases hook_modules.filter (fun n => !(importable n)) with
    | nil => rfl
    | cons a rest =>
      cases pip with
      | raised m => rfl
      | exited c => split <;> first | rfl | (split <;> rfl)
  · rfl

/-- C2 (witness): the hook-swallowing half of the amended theorem evaluated at
a run whose pip launch raises. -/
theorem prestartup_error_policy_witness :
    exceptOk (_ensure_cuda_wheels noModulesImportable "/usr/bin/python3"
      (RunOutcome.raised "FileNotFoundError")) = true :=
  prestartup_error_policy.1 noModulesImportable "/usr/bin/python3"
    (RunOutcome.raised "FileNotFoundError")

/-- C4 (counterexample): on a filesystem where the venv interpreter exists,
the pre-startup hook's wheel install still puts `sys.executable` at the head
of its pip command, not the venv interpreter — refuting the claim that the
venv resolution logic applies to the hook's wheel-install step. -/
theorem hook_ignores_resolver_cex :
    allPathsExist (venvPythonPath ["ComfyUI", "custom_nodes", "ComfyUI-TRELLIS2"] false) = true
    ∧ _get_comfyui_venv_python allPathsExist
        ["ComfyUI", "custom_nodes", "ComfyUI-TRELLIS2"] false
      = some ["ComfyUI", "venv", "bin", "python"]
    ∧ _ensure_cuda_wheels noModulesImportable "/usr/bin/python3" (RunOutcome.exited 0)
      = Except.ok ([], some (["/usr/bin/python3", "-m", "pip", "install"] ++ wheel_urls))
    ∧ "/usr/bin/python3" ≠ pathStr ["ComfyUI", "venv", "bin", "python"] :=
  ⟨rfl, rfl, rfl, by decide⟩

/-- C4 (amended): `_get_comfyui_venv_python` returns the venv interpreter path
(two parents above the plugin root, then the platform-specific venv python)
exactly when it exists, else the fallback sentinel; both installer steps put
the so-resolved interpreter at the head of their pip commands; the pre-startup
hook's wheel install instead always uses the currently running interpreter. -/
theorem venv_resolution_spec (fsE : List String → Bool) (root : List String)
    (win : Bool) (env : InstallerEnv) (importable : String → Bool)
    (exe : String) (pip : RunOutcome) :
    (fsE (venvPythonPath root win) = true →
      _get_comfyui_venv_python fsE root win = some (venvPythonPath root win))
    ∧ (fsE (venvPythonPath root win) = false →
      _get_comfyui_venv_python fsE root win = none)
    ∧ (∀ cmd, cmd ∈ (ensure_venv_requirements env).2 →
        cmd.head? = some (resolvedExec env))
    ∧ (∀ cmd, cmd ∈ (ensure_cuda_packages env).2 →
        cmd.head? = some (resolvedExec env))
    ∧ (∀ logs cmd,
        _ensure_cuda_wheels importable exe pip = Except.ok (logs, some cmd) →
        cmd.head? = some exe) := by
  refine ⟨?_, ?_, ?_, ?_, ?_⟩
  · intro h; simp [_get_comfyui_venv_python, h]
  · intro h; simp [_get_comfyui_venv_python, h]
  · intro cmd hm
    unfold ensure_venv_requirements at hm
    split at hm
    · simp at hm
    · split at hm <;> simp only [List.mem_singleton] at hm <;> subst hm <;> rfl
  · intro cmd hm
    unfold ensure_cuda_packages at hm
    split at hm <;> simp only [List.mem_singleton] at hm <;> subst hm <;> rfl
  · intro logs cmd h
    unfold _ensure_cuda_wheels at h
    rcases hf : hook_modules.filter (fun n => !(importable n)) with _ | ⟨a, rest⟩
    · rw [hf] at h
      simp at h
    · rw [hf] at h
      cases pip with
      | raised m =>
        simp only [Except.ok.injEq, Prod.mk.injEq, Option.some.injEq] at h
        rw [← h.2]
        rfl
      | exited c =>
        simp only at h
        split at h <;>
          simp only [Except.ok.injEq, Prod.mk.injEq, Option.some.injEq] at h <;>
          rw [← h.2] <;> rfl

/-- C4 (witness): the amended theorem's resolver cases and the hook case at
concrete inputs. -/
theorem venv_resolution_spec_witness :
    _get_comfyui_venv_python allPathsExist ["a", "b"] false
      = some ["venv", "bin", "python"]
    ∧ (["/usr/bin/python3", "-m", "pip", "install"] ++ wheel_urls).head?
      = some "/usr/bin/python3" := by
  have h := venv_resolution_spec allPathsExist ["a", "b"] false envAllOk
    noModulesImportable "/usr/bin/python3" (RunOutcome.exited 0)
  exact ⟨h.1 rfl, h.2.2.2.2 [] _ rfl⟩

/-- C9: whenever `copy_assets_to_input` completes, every file already in the
input directory keeps its content (never overwritten), any newly appearing
destination name comes from a regular-file asset (directories are never
copied), and if the assets directory is absent nothing changes at all. -/
theorem copy_assets_no_overwrite (fs fs' : HookFS) (acts : List Action)
    (h : copy_assets_to_input fs = Except.ok (fs', acts)) :
    (∀ n c, lookupFile n fs.input = some c → lookupFile n fs'.input = some c)
    ∧ (∀ n, lookupFile n fs.input = none → lookupFile n fs'.input ≠ none →
        ∃ e, e ∈ fs.assets ∧ e.name = n ∧ e.isFile = true)
    ∧ (fs.assetsExists = false → fs' = fs ∧ acts = []) := by
  unfold copy_assets_to_input at h
  by_cases ha : fs.assetsExists = true
  · rw [if_pos ha] at h
    cases hrec : copyLoop true fs.copyFails fs.assets fs.input with
    | ok pr =>
      obtain ⟨input', acts'⟩ := pr
      rw [hrec] at h
      simp only [Except.ok.injEq, Prod.mk.injEq] at h
      obtain ⟨hfs', hacts⟩ := h
      refine ⟨?_, ?_, ?_⟩
      · intro n c hl
        rw [← hfs']
        exact copyLoop_preserves true fs.copyFails fs.assets fs.input input'
          acts' n c hl hrec
      · intro n hnone hsome
        rw [← hfs'] at hsome
        rcases copyLoop_new_files true fs.copyFails fs.assets fs.input input'
            acts' n hrec hsome with hcontra | hgood
        · exact absurd hnone hcontra
        · exact hgood
      · intro hfalse
        rw [hfalse] at ha
        exact Bool.noConfusion ha
    | error m =>
      rw [hrec] at h
      exact absurd h (by simp)
  · rw [if_neg ha] at h
    simp only [Except.ok.injEq, Prod.mk.injEq] at h
    obtain ⟨hfs', hacts⟩ := h
    subst hfs'
    refine ⟨fun n c hl => hl, fun n hnone hsome => absurd hnone hsome, ?_⟩
    intro _
    exact ⟨rfl, hacts.symm⟩

/-- C9 (witness): on a concrete filesystem whose input directory already holds
`old.png` with content `OLD` and whose assets hold a newer `old.png`, a
directory, and `fresh.png`, the copy completes and `old.png` keeps `OLD`. -/
theorem copy_assets_no_overwrite_witness :
    lookupFile "old.png" hookOkFSAfter.input = some "OLD" :=
  (copy_assets_no_overwrite hookOkFS hookOkFSAfter
    [Action.mkdirInput, Action.copyAsset "fresh.png"] rfl).1 "old.png" "OLD" rfl

/-- C10: whenever the assets directory exists, `copy_assets_to_input`'s very
first action is `os.makedirs` on the input directory (tolerating prior
existence), before any copy; so with no individual copy failing the whole copy
succeeds even from a state where the input directory did not exist, and the
copy never fails with a missing-input-directory error. -/
theorem copy_assets_mkdir_before_copy (fs : HookFS)
    (h : fs.assetsExists = true) :
    (∀ fs' acts, copy_assets_to_input fs = Except.ok (fs', acts) →
        acts.head? = some Action.mkdirInput ∧ fs'.inputDirExists = true)
    ∧ ((∀ e, e ∈ fs.assets → fs.copyFails e.name = false) →
        exceptOk (copy_assets_to_input fs) = true)
    ∧ copy_assets_to_input fs ≠ Except.error HookErr.noInputDir := by
  refine ⟨?_, ?_, ?_⟩
  · intro fs' acts hc
    unfold copy_assets_to_input at hc
    rw [if_pos h] at hc
    cases hrec : copyLoop true fs.copyFails fs.assets fs.input with
    | ok pr =>
      obtain ⟨input', acts'⟩ := pr
      rw [hrec] at hc
      simp only [Except.ok.injEq, Prod.mk.injEq] at hc
      obtain ⟨hfs', hacts⟩ := hc
      constructor
      · rw [← hacts]; rfl
      · rw [← hfs']
    | error m =>
      rw [hrec] at hc
      exact absurd hc (by simp)
  · intro hnf
    unfold copy_assets_to_input
    rw [if_pos h]
    obtain ⟨out, acts, hrec⟩ := copyLoop_ok_of_no_failures fs.copyFails
      fs.assets fs.input hnf
    rw [hrec]
    rfl
  · intro hc
    unfold copy_assets_to_input at hc
    rw [if_pos h] at hc
    cases hrec : copyLoop true fs.copyFails fs.assets fs.input with
    | ok pr =>
      obtain ⟨input', acts'⟩ := pr
      rw [hrec] at hc
      exact absurd hc (by simp)
    | error m =>
      rw [hrec] at hc
      simp only [Except.error.injEq] at hc
      rw [hc] at hrec
      exact copyLoop_no_missing_dir_error fs.copyFails fs.assets fs.input hrec

/-- C10 (witness): on the concrete filesystem whose input directory does not
yet exist, the copy completes, its first action is the mkdir, and the input
directory exists afterwards. -/
theorem copy_assets_mkdir_before_copy_witness :
    ([Action.mkdirInput, Action.copyAsset "fresh.png"] : List Action).head?
      = some Action.mkdirInput
    ∧ hookOkFSAfter.inputDirExists = true
    ∧ hookOkFS.inputDirExists = false :=
  ⟨((copy_assets_mkdir_before_copy hookOkFS rfl).1 hookOkFSAfter
      [Action.mkdirInput, Action.copyAsset "fresh.png"] rfl).1,
   ((copy_assets_mkdir_before_copy hookOkFS rfl).1 hookOkFSAfter
      [Action.mkdirInput, Action.copyAsset "fresh.png"] rfl).2,
   rfl⟩

end Trellis2
